import Mathlib

/-!
Shallow embedding of the movie recommendation engine in `app.py`
(class `MovieRecommender` plus its loaders), with the claims of the
specification stated and settled against it.

Modelling conventions:
* Tabular CSV input is a `List (List String)` of pre-split rows.
* pandas floats are modelled as exact rationals (`ℚ`); `pd.to_numeric(...,
  errors='coerce')` is a partial parser returning `Option ℚ` on optionally
  signed decimal numerals.
* `NaN` cells produced by the left merge are modelled as `Option` fields;
  pandas `NaN > x` comparisons are `false`, modelled by matching on `none`.
* sklearn's `TfidfVectorizer(stop_words='english')` is embedded
  structurally (tokenisation on non-word characters, lowercasing, tokens of
  length ≥ 2, stop-word removal, term counts, document frequencies).  The
  library's fixed English stop-word list and its smoothed idf weight
  `ln((1+n)/(1+df)) + 1` are third-party constants, the latter irrational,
  so `TfidfParams` keeps them abstract; theorems that depend on them take
  as hypotheses only properties the real sklearn values satisfy
  (`"comedy"`/`"drama"` are not stop words, idf ≥ 1).
* Cosine similarity involves square roots, so a similarity score is
  represented by its square `simSq ∈ ℚ` (zero when either vector is zero,
  as in sklearn's `cosine_similarity` after row normalisation).  For the
  nonnegative feature vectors arising here the map `x ↦ x²` is strictly
  monotone on the attainable scores, so every ordering statement about
  similarity is faithfully represented by the same statement about
  `simSq`.
-/

set_option maxRecDepth 1000000

/-! ### Numeric coercion (`pd.to_numeric(errors='coerce')`) -/

/-- Parse a nonempty all-digit character list as a natural number. -/
def parseNat? (s : List Char) : Option ℕ :=
  if s = [] then none
  else if s.all Char.isDigit then
    some (s.foldl (fun acc c => acc * 10 + (c.toNat - 48)) 0)
  else none

/-- Split a character list on a separator character (keeps empty pieces). -/
def splitOnChar (sep : Char) : List Char → List (List Char)
  | [] => [[]]
  | c :: rest =>
    let r := splitOnChar sep rest
    if c = sep then [] :: r
    else
      match r with
      | [] => [[c]]
      | t :: ts => (c :: t) :: ts

/-- Parse an optionally signed decimal numeral as an exact rational;
`none` models a value that `pd.to_numeric(errors='coerce')` turns into
`NaN`. -/
def parseRat? (s : String) : Option ℚ :=
  let cs := s.toList
  let p : Bool × List Char :=
    match cs with
    | '-' :: rest => (true, rest)
    | '+' :: rest => (false, rest)
    | _ => (false, cs)
  match splitOnChar '.' p.2 with
  | [ip] => (parseNat? ip).map (fun n => if p.1 then -(n : ℚ) else (n : ℚ))
  | [ip, fp] =>
    match parseNat? ip, parseNat? fp with
    | some n, some f =>
      let v : ℚ := (n : ℚ) + (f : ℚ) / ((10 : ℚ) ^ fp.length)
      some (if p.1 then -v else v)
    | _, _ => none
  | _ => none

/-! ### CSV reading (`pd.read_csv`) -/

/-- A parsed tabular file: a header of column names and data rows. -/
structure Table where
  header : List String
  rows : List (List String)
deriving DecidableEq

/-- Reading a CSV with its first line as header (`pd.read_csv(path)`).
`none` models the exceptions of the parse: an empty input
(`EmptyDataError`) or ragged rows (tokenizer error). -/
def readCsvNamed (input : List (List String)) : Option Table :=
  match input with
  | [] => none
  | header :: rest =>
    if rest.all (fun r => decide (r.length = header.length)) then
      some ⟨header, rest⟩
    else none

/-- Reading a CSV as headerless data with the given column names assigned
positionally (`pd.read_csv(path, header=None, names=...)`). -/
def readCsvPositional (names : List String) (input : List (List String)) : Option Table :=
  match input with
  | [] => none
  | _ =>
    if input.all (fun r => decide (r.length = names.length)) then
      some ⟨names, input⟩
    else none

/-- The two-tier parse of the source: try the named parse, and only if it
raises fall back to the positional parse.  Mirrors the inner
`try/except` around `pd.read_csv` in `_load_movies` / `_load_ratings`. -/
def tableFor (names : List String) (input : List (List String)) : Option Table :=
  match readCsvNamed input with
  | some t => some t
  | none => readCsvPositional names input

/-- Look a cell up by column name (empty string for an absent column; the
loaders only use it on columns present in the header). -/
def cellAt (header row : List String) (c : String) : String :=
  match header.findIdx? (fun h => decide (h = c)) with
  | some i => row.getD i ""
  | none => ""

/-- Errors of the loaders: an unreadable source, or a required column
missing after the parse that was used (`ValueError("Missing required
column: ...")` in the source). -/
inductive LoadError where
  | ioError : LoadError
  | schemaError : String → LoadError
deriving DecidableEq

/-! ### Data model -/

/-- One catalog row after loading (`movieId` numeric, `title` a string,
`genres` a string with the `"Unknown"` sentinel already filled in). -/
structure MovieRow where
  movieId : ℚ
  title : String
  genres : String
deriving DecidableEq

/-- One ratings row after loading; all three fields numeric. -/
structure RatingRow where
  userId : ℚ
  movieId : ℚ
  rating : ℚ
deriving DecidableEq

/-- One row of the derived per-title statistics table (`movie_stats`). -/
structure StatsRow where
  title : String
  meanRating : ℚ
  ratingCount : ℕ
deriving DecidableEq

/-! ### Loaders (`_load_movies`, `_load_ratings`) -/

/-- Row cleaning of `_load_movies`: coerce `movieId` to numeric dropping
failures, keep `title` as a string, fill missing `genres` with
`"Unknown"` (an empty cell models a `NaN`). -/
def cleanMovieRows (t : Table) : List MovieRow :=
  t.rows.filterMap (fun r =>
    (parseRat? (cellAt t.header r "movieId")).map (fun id =>
      ⟨id, cellAt t.header r "title",
        (fun g => if g = "" then "Unknown" else g) (cellAt t.header r "genres")⟩))

/-- The catalog loader `_load_movies`: two-tier parse, then the required
column check, then row cleaning.  The fallback is attempted only when the
named parse raises; a successfully parsed table missing a required column
fails immediately. -/
def loadMovies (input : List (List String)) : Except LoadError (List MovieRow) :=
  match tableFor ["movieId", "title", "genres"] input with
  | none => .error .ioError
  | some t =>
    match ["movieId", "title", "genres"].find? (fun c => !(t.header.contains c)) with
    | some c => .error (.schemaError c)
    | none => .ok (cleanMovieRows t)

/-- Row cleaning of `_load_ratings`: all three required fields are coerced
to numeric and the row is dropped if any one of them fails. -/
def cleanRatingRows (t : Table) : List RatingRow :=
  t.rows.filterMap (fun r =>
    match parseRat? (cellAt t.header r "userId"),
          parseRat? (cellAt t.header r "movieId"),
          parseRat? (cellAt t.header r "rating") with
    | some u, some m, some v => some ⟨u, m, v⟩
    | _, _, _ => none)

/-- The ratings loader `_load_ratings` (named columns
`userId, movieId, rating, timestamp`; `timestamp` is never used). -/
def loadRatings (input : List (List String)) : Except LoadError (List RatingRow) :=
  match tableFor ["userId", "movieId", "rating", "timestamp"] input with
  | none => .error .ioError
  | some t =>
    match ["userId", "movieId", "rating"].find? (fun c => !(t.header.contains c)) with
    | some c => .error (.schemaError c)
    | none => .ok (cleanRatingRows t)

/-- Modelled from the spec (not from the source): the catalog loader as
the specification words it, where a named parse that *fails to validate*
(lacks a required column) also falls back to the positional parse, and a
`SchemaError` arises only if a required column is still missing after the
fallback.  Used solely to compare the spec's claimed control flow with
`loadMovies`. -/
def loadMoviesSpec (input : List (List String)) : Except LoadError (List MovieRow) :=
  let named : Option Table :=
    match readCsvNamed input with
    | some t =>
      if ["movieId", "title", "genres"].all (fun c => t.header.contains c) then some t
      else none
    | none => none
  match named with
  | some t => .ok (cleanMovieRows t)
  | none =>
    match readCsvPositional ["movieId", "title", "genres"] input with
    | none => .error .ioError
    | some t =>
      match ["movieId", "title", "genres"].find? (fun c => !(t.header.contains c)) with
      | some c => .error (.schemaError c)
      | none => .ok (cleanMovieRows t)

/-! ### Feature builder (`_preprocess_data`) -/

/-- The inner merge `pd.merge(self.movies, self.ratings, on='movieId')`:
one output row per matching (movie, rating) pair, left-frame order. -/
def mergedRows (movies : List MovieRow) (ratings : List RatingRow) :
    List (MovieRow × RatingRow) :=
  movies.flatMap (fun m =>
    (ratings.filter (fun r => decide (m.movieId = r.movieId))).map (fun r => (m, r)))

/-- The distinct titles of the merged table (`groupby('title')` keys). -/
def statTitles (movies : List MovieRow) (ratings : List RatingRow) : List String :=
  ((mergedRows movies ratings).map (fun p => p.1.title)).dedup

/-- The rating values of the merged rows grouped under a given title. -/
def ratingsOfTitle (movies : List MovieRow) (ratings : List RatingRow) (t : String) :
    List ℚ :=
  ((mergedRows movies ratings).filter (fun p => decide (p.1.title = t))).map
    (fun p => p.2.rating)

/-- The `movie_stats` table: per distinct merged title, the arithmetic
mean and the count of its rating values. -/
def movieStats (movies : List MovieRow) (ratings : List RatingRow) : List StatsRow :=
  (statTitles movies ratings).map (fun t =>
    ⟨t, (ratingsOfTitle movies ratings t).sum /
        ((ratingsOfTitle movies ratings t).length : ℚ),
      (ratingsOfTitle movies ratings t).length⟩)

/-- Claim-side description of the joined rating values of a title,
iterating the ratings table and matching each rating row against the
catalog on movie id: the values of exactly those (movie, rating) pairs
that inner-join on movie id with the movie bearing the title. -/
def ratingsJoinedTo (movies : List MovieRow) (ratings : List RatingRow) (t : String) :
    List ℚ :=
  ratings.flatMap (fun r =>
    (movies.filter (fun m => decide (m.movieId = r.movieId) && decide (m.title = t))).map
      (fun _ => r.rating))

/-! ### TF-IDF vectorizer -/

/-- Word characters of the token pattern `\b\w\w+\b` (ASCII reading). -/
def isWordChar (c : Char) : Bool :=
  c.isAlphanum || c == '_'

/-- Lowercase and split a document into maximal word-character runs,
keeping tokens of length at least two, as sklearn's default analyzer
does. -/
def tokenize (s : String) : List String :=
  ((splitOnChar ' ' (s.toList.map (fun c => if isWordChar c then c.toLower else ' '))).map
    List.asString).filter (fun t => decide (2 ≤ t.length))

/-- Abstracted third-party constants of
`TfidfVectorizer(stop_words='english')`: the frozen English stop-word
list, and the smoothed idf weight as a function of the corpus size and a
token's document frequency (`ln((1+n)/(1+df)) + 1` in sklearn, kept
abstract because it is irrational; it is always ≥ 1). -/
structure TfidfParams where
  stopWords : List String
  idf : ℕ → ℕ → ℚ

/-- Tokens of a document after stop-word removal. -/
def tokensOf (P : TfidfParams) (doc : String) : List String :=
  (tokenize doc).filter (fun t => !(P.stopWords.contains t))

/-- The vocabulary fitted over a corpus (distinct tokens; sklearn sorts
them alphabetically, which only fixes the coordinate order and does not
affect any dot product, so first-occurrence order is used). -/
def vocabOf (P : TfidfParams) (corpus : List String) : List String :=
  (corpus.flatMap (tokensOf P)).dedup

/-- Document frequency of a token over the corpus. -/
def docFreq (P : TfidfParams) (corpus : List String) (t : String) : ℕ :=
  (corpus.filter (fun d => (tokensOf P d).contains t)).length

/-- Term count of a token in one document. -/
def termCount (P : TfidfParams) (doc t : String) : ℕ :=
  ((tokensOf P doc).filter (fun s => decide (s = t))).length

/-- The raw (unnormalised) tf-idf vector of a document against a fitted
corpus; one coordinate per vocabulary token. -/
def vectorize (P : TfidfParams) (corpus : List String) (doc : String) : List ℚ :=
  (vocabOf P corpus).map (fun t =>
    (termCount P doc t : ℚ) * P.idf corpus.length (docFreq P corpus t))

/-- Dot product of two coordinate lists. -/
def dotProd (u v : List ℚ) : ℚ :=
  (List.zipWith (fun a b => a * b) u v).sum

/-- The squared cosine similarity of two vectors (`0` when either vector
is zero, as sklearn's `cosine_similarity` yields after normalising a zero
row to itself).  Division cancels the row normalisation, so no square
roots are needed. -/
def simSq (u v : List ℚ) : ℚ :=
  if dotProd u u = 0 ∨ dotProd v v = 0 then 0
  else (dotProd u v) ^ 2 / (dotProd u u * dotProd v v)

/-! ### Recommendation engine (`get_recommendations`) -/

/-- The genre corpus the vectorizer is fitted on: one genre string per
catalog row, in catalog order. -/
def corpusOf (movies : List MovieRow) : List String :=
  movies.map (fun m => m.genres)

/-- The catalog's title column (`self.movies['title'].values`). -/
def catalogTitles (movies : List MovieRow) : List String :=
  movies.map (fun m => m.title)

/-- The input titles that exist in the catalog, in input order
(`valid_movies` in the source). -/
def validMoviesOf (movies : List MovieRow) (inputMovies : List String) : List String :=
  inputMovies.filter (fun t => (catalogTitles movies).contains t)

/-- The single query-time error of the engine
(`ValueError("None of the specified movies are in the dataset")`). -/
inductive RecError where
  | noValidInput : RecError
deriving DecidableEq

/-- One returned recommendation row: title, genres, (squared) similarity,
and the statistics brought in by the left merge (`none` models the `NaN`
of a title absent from `movie_stats`). -/
structure RecRow where
  title : String
  genres : String
  simSq : ℚ
  meanRating : Option ℚ
  ratingCount : Option ℕ
deriving DecidableEq

/-- Left-merge lookup of a title in `movie_stats`. -/
def statsFor (movies : List MovieRow) (ratings : List RatingRow) (t : String) :
    Option StatsRow :=
  (movieStats movies ratings).find? (fun s => decide (s.title = t))

/-- The query vector: row `[0]` of the transformed liked-title genre
rows, i.e. the tf-idf vector of the first catalog row whose title is
among the valid liked titles. -/
def queryVecOf (P : TfidfParams) (movies : List MovieRow) (valid : List String) : List ℚ :=
  match movies.find? (fun m => valid.contains m.title) with
  | some m => vectorize P (corpusOf movies) m.genres
  | none => []

/-- The pre-filter recommendation table: one row per catalog row, with
its similarity to the query vector and its left-merged statistics. -/
def candidateRows (P : TfidfParams) (movies : List MovieRow) (ratings : List RatingRow)
    (valid : List String) : List RecRow :=
  movies.map (fun m =>
    ⟨m.title, m.genres,
      simSq (queryVecOf P movies valid) (vectorize P (corpusOf movies) m.genres),
      (statsFor movies ratings m.title).map (fun x => x.meanRating),
      (statsFor movies ratings m.title).map (fun x => x.ratingCount)⟩)

/-- The row filter of the source: exclude the liked titles and keep only
rows with mean rating above `3.5` and rating count above `300`; a missing
statistic (`NaN`) fails both comparisons. -/
def passesFilter (valid : List String) (row : RecRow) : Bool :=
  !(valid.contains row.title) &&
  (match row.meanRating with
   | some m => decide ((7 : ℚ) / 2 < m)
   | none => false) &&
  (match row.ratingCount with
   | some c => decide (300 < c)
   | none => false)

/-- Rows ordered by non-increasing similarity (the descending sort key of
`sort_values('genre_similarity', ascending=False)`). -/
def simGE (a b : RecRow) : Prop :=
  b.simSq ≤ a.simSq

instance : DecidableRel simGE :=
  fun a b => inferInstanceAs (Decidable (b.simSq ≤ a.simSq))

instance : IsTotal RecRow simGE :=
  ⟨fun a b => le_total b.simSq a.simSq⟩

instance : IsTrans RecRow simGE :=
  ⟨fun _ _ _ h1 h2 => le_trans h2 h1⟩

/-- The engine's query operation `get_recommendations(input_movies,
top_n)`: validate the liked titles, raise if none is known, score every
catalog row against the query vector, left-merge the statistics, filter,
sort by similarity descending and return the first `topN` rows. -/
def getRecommendations (P : TfidfParams) (movies : List MovieRow)
    (ratings : List RatingRow) (inputMovies : List String) (topN : ℕ) :
    Except RecError (List RecRow) :=
  if (validMoviesOf movies inputMovies).isEmpty then .error .noValidInput
  else
    .ok ((List.insertionSort simGE
      ((candidateRows P movies ratings (validMoviesOf movies inputMovies)).filter
        (passesFilter (validMoviesOf movies inputMovies)))).take topN)

/-! ### Concrete scenarios used by the claims -/

/-- A concrete instance of the abstracted vectorizer constants for
witness runs: no stop words and constant idf weight `1`. -/
def pConst : TfidfParams :=
  ⟨[], fun _ _ => 1⟩

/-- The catalog of the spec's concrete scenario. -/
def c6movies : List MovieRow :=
  [⟨1, "A", "Comedy"⟩, ⟨2, "B", "Comedy"⟩, ⟨3, "C", "Drama"⟩]

/-- Ratings giving each of A, B and C a mean of `4.0` over `400`
ratings. -/
def c6ratings : List RatingRow :=
  List.replicate 400 ⟨1, 1, 4⟩ ++ List.replicate 400 ⟨1, 2, 4⟩ ++
    List.replicate 400 ⟨1, 3, 4⟩

/-- A small two-movie catalog for witness runs. -/
def wMovies : List MovieRow :=
  [⟨1, "A", "Comedy"⟩, ⟨2, "B", "Comedy"⟩]

/-- Ratings for the small catalog: movie B has `301` ratings of value
`4`, so it passes both thresholds. -/
def wRatings : List RatingRow :=
  List.replicate 301 ⟨1, 2, 4⟩

/-- The single row the small engine returns for the query `["A"]`. -/
def wRow : RecRow :=
  ⟨"B", "Comedy", 1, some 4, some 301⟩

/-- A one-movie catalog with no ratings at all: the only candidate is the
liked movie itself, so every query filters down to nothing. -/
def soloMovies : List MovieRow :=
  [⟨1, "A", "Comedy"⟩]

/-- A catalog CSV that parses successfully with its first data row taken
as the header, so the header does not name the required columns. -/
def c7input : List (List String) :=
  [["1", "Matrix", "Action"], ["2", "Up", "Animation"]]

/-- A well-formed catalog CSV whose first row names the columns. -/
def c7namedInput : List (List String) :=
  [["movieId", "title", "genres"], ["5", "X", "Comedy"]]

/-! ### Basic lemmas about the engine -/

/-- A title is a valid liked title exactly when it occurs in the input
and in the catalog. -/
theorem mem_validMoviesOf {movies : List MovieRow} {inputMovies : List String}
    {t : String} :
    t ∈ validMoviesOf movies inputMovies ↔ t ∈ inputMovies ∧ t ∈ catalogTitles movies := by
  simp [validMoviesOf, List.mem_filter]

/-- The engine raises exactly when no input title is in the catalog. -/
theorem getRecommendations_eq_error_iff (P : TfidfParams) (movies : List MovieRow)
    (ratings : List RatingRow) (inputMovies : List String) (topN : ℕ) :
    getRecommendations P movies ratings inputMovies topN = .error .noValidInput ↔
      validMoviesOf movies inputMovies = [] := by
  unfold getRecommendations
  cases hv : (validMoviesOf movies inputMovies).isEmpty with
  | true => simp [hv, List.isEmpty_iff.mp hv]
  | false =>
    simp only [hv, Bool.false_eq_true, if_false, reduceCtorEq, false_iff]
    intro h
    rw [h] at hv
    cases hv

/-- Every row of a successful result is a candidate row passing the
filter. -/
theorem mem_of_getRecommendations_ok {P : TfidfParams} {movies : List MovieRow}
    {ratings : List RatingRow} {inputMovies : List String} {topN : ℕ}
    {rows : List RecRow}
    (h : getRecommendations P movies ratings inputMovies topN = .ok rows) :
    ∀ row ∈ rows,
      row ∈ candidateRows P movies ratings (validMoviesOf movies inputMovies) ∧
        passesFilter (validMoviesOf movies inputMovies) row = true := by
  intro row hrow
  unfold getRecommendations at h
  cases hv : (validMoviesOf movies inputMovies).isEmpty with
  | true => simp [hv] at h
  | false =>
    simp only [hv, Bool.false_eq_true, if_false, Except.ok.injEq] at h
    rw [← h] at hrow
    have h1 := List.mem_of_mem_take hrow
    have h2 := (List.mem_insertionSort simGE).mp h1
    exact ⟨(List.mem_filter.mp h2).1, (List.mem_filter.mp h2).2⟩

/-- Unpacking the row filter. -/
theorem passesFilter_spec {valid : List String} {row : RecRow}
    (h : passesFilter valid row = true) :
    row.title ∉ valid ∧ (∃ m, row.meanRating = some m ∧ (7 : ℚ) / 2 < m) ∧
      ∃ c, row.ratingCount = some c ∧ 300 < c := by
  unfold passesFilter at h
  simp only [Bool.and_eq_true, Bool.not_eq_true'] at h
  obtain ⟨⟨h1, h2⟩, h3⟩ := h
  refine ⟨by simpa using h1, ?_, ?_⟩
  · cases hm : row.meanRating with
    | none => rw [hm] at h2; cases h2
    | some m =>
      rw [hm] at h2
      exact ⟨m, rfl, of_decide_eq_true h2⟩
  · cases hc : row.ratingCount with
    | none => rw [hc] at h3; cases h3
    | some c =>
      rw [hc] at h3
      exact ⟨c, rfl, of_decide_eq_true h3⟩

/-- The fields a candidate row carries for a catalog row. -/
theorem mem_candidateRows {P : TfidfParams} {movies : List MovieRow}
    {ratings : List RatingRow} {valid : List String} {row : RecRow}
    (h : row ∈ candidateRows P movies ratings valid) :
    ∃ m ∈ movies, row.title = m.title ∧ row.genres = m.genres ∧
      row.meanRating = (statsFor movies ratings m.title).map (fun x => x.meanRating) ∧
      row.ratingCount = (statsFor movies ratings m.title).map (fun x => x.ratingCount) := by
  unfold candidateRows at h
  obtain ⟨m, hm, hrow⟩ := List.mem_map.mp h
  exact ⟨m, hm, by rw [← hrow], by rw [← hrow], by rw [← hrow], by rw [← hrow]⟩

/-- C1: for every query, `getRecommendations` raises `NoValidInputError`
if and only if the intersection of the supplied liked titles with the
catalog titles is empty (in particular on the empty input list), and —
`RecError` having `noValidInput` as its only constructor — this is the
only query-time error condition. -/
theorem c1_error_iff_empty_intersection (P : TfidfParams) (movies : List MovieRow)
    (ratings : List RatingRow) (inputMovies : List String) (topN : ℕ) :
    (getRecommendations P movies ratings inputMovies topN = .error .noValidInput ↔
      ∀ t ∈ inputMovies, t ∉ catalogTitles movies) ∧
    getRecommendations P movies ratings [] topN = .error .noValidInput := by
  constructor
  · rw [getRecommendations_eq_error_iff]
    constructor
    · intro h t ht hcat
      have : t ∈ validMoviesOf movies inputMovies := mem_validMoviesOf.mpr ⟨ht, hcat⟩
      rw [h] at this
      cases this
    · intro h
      cases hv : validMoviesOf movies inputMovies with
      | nil => rfl
      | cons a l =>
        exfalso
        have : a ∈ validMoviesOf movies inputMovies := by rw [hv]; exact List.mem_cons_self a l
        obtain ⟨ha, hcat⟩ := mem_validMoviesOf.mp this
        exact h a ha hcat
  · rw [getRecommendations_eq_error_iff]
    rfl

/-- C2: every row of a successful result has a mean rating strictly
above `3.5` and a rating count strictly above `300` (the thresholds are
the fixed constants of `passesFilter`, not inputs of
`getRecommendations`). -/
theorem c2_thresholds {P : TfidfParams} {movies : List MovieRow}
    {ratings : List RatingRow} {inputMovies : List String} {topN : ℕ}
    {rows : List RecRow}
    (h : getRecommendations P movies ratings inputMovies topN = .ok rows) :
    ∀ row ∈ rows, (∃ m, row.meanRating = some m ∧ (7 : ℚ) / 2 < m) ∧
      ∃ c, row.ratingCount = some c ∧ 300 < c := by
  intro row hrow
  have hmem := mem_of_getRecommendations_ok h row hrow
  exact (passesFilter_spec hmem.2).2

/-- C3: no row of a successful result bears a title from the valid
subset of the input liked titles. -/
theorem c3_no_liked_title_returned {P : TfidfParams} {movies : List MovieRow}
    {ratings : List RatingRow} {inputMovies : List String} {topN : ℕ}
    {rows : List RecRow}
    (h : getRecommendations P movies ratings inputMovies topN = .ok rows) :
    ∀ row ∈ rows, row.title ∉ validMoviesOf movies inputMovies := by
  intro row hrow
  have hmem := mem_of_getRecommendations_ok h row hrow
  exact (passesFilter_spec hmem.2).1

/-- C4: a successful result has at most `topN` rows and is sorted by
similarity in non-increasing order (stated on the squared similarity
`simSq`, the order-faithful representation of the similarity score);
each row is a `RecRow`, which exposes exactly the title, the genres, the
similarity, the mean rating and the rating count. -/
theorem c4_length_and_sorted {P : TfidfParams} {movies : List MovieRow}
    {ratings : List RatingRow} {inputMovies : List String} {topN : ℕ}
    {rows : List RecRow}
    (h : getRecommendations P movies ratings inputMovies topN = .ok rows) :
    rows.length ≤ topN ∧ rows.Sorted simGE := by
  unfold getRecommendations at h
  cases hv : (validMoviesOf movies inputMovies).isEmpty with
  | true => simp [hv] at h
  | false =>
    simp only [hv, Bool.false_eq_true, if_false, Except.ok.injEq] at h
    constructor
    · rw [← h, List.length_take]
      exact min_le_left _ _
    · rw [← h]
      exact (List.sorted_insertionSort simGE _).sublist (List.take_sublist _ _)

/-- C10: every row of a successful result has a matching row in
`movie_stats`; a catalog movie whose title is absent from the statistics
table (its merged statistics are missing after the left merge) is never
returned. -/
theorem c10_returned_rows_have_stats {P : TfidfParams} {movies : List MovieRow}
    {ratings : List RatingRow} {inputMovies : List String} {topN : ℕ}
    {rows : List RecRow}
    (h : getRecommendations P movies ratings inputMovies topN = .ok rows) :
    ∀ row ∈ rows, ∃ s ∈ movieStats movies ratings, s.title = row.title := by
  intro row hrow
  have hmem := mem_of_getRecommendations_ok h row hrow
  obtain ⟨m, _, htitle, _, hmean, _⟩ := mem_candidateRows hmem.1
  obtain ⟨mr, hmr, _⟩ := (passesFilter_spec hmem.2).2.1
  rw [hmean] at hmr
  cases hs : statsFor movies ratings m.title with
  | none => rw [hs] at hmr; cases hmr
  | some s =>
    refine ⟨s, List.mem_of_find?_eq_some hs, ?_⟩
    have := List.find?_some hs
    rw [htitle]
    exact of_decide_eq_true this

/-! ### The statistics agree with the direct join (C5) -/

/-- Sum of a pointwise sum of two maps. -/
theorem sum_map_add {α : Type} {M : Type} [AddCommMonoid M] (l : List α) (f g : α → M) :
    (l.map (fun a => f a + g a)).sum = (l.map f).sum + (l.map g).sum := by
  induction l with
  | nil => simp
  | cons a l ih =>
    simp only [List.map_cons, List.sum_cons, ih]
    exact add_add_add_comm _ _ _ _

/-- Exchanging the order of a double sum over two lists. -/
theorem sum_map_swap {α β : Type} {M : Type} [AddCommMonoid M] (l₁ : List α)
    (l₂ : List β) (f : α → β → M) :
    (l₁.map (fun a => ((l₂.map (f a)).sum))).sum =
      (l₂.map (fun b => ((l₁.map (fun a => f a b)).sum))).sum := by
  induction l₁ with
  | nil => simp
  | cons a l ih =>
    simp only [List.map_cons, List.sum_cons, ih, ← sum_map_add]

/-- Summing a map over a filter as a sum of guarded terms. -/
theorem sum_map_filter_eq_sum_ite {α : Type} {M : Type} [AddCommMonoid M] (l : List α)
    (p : α → Bool) (f : α → M) :
    ((l.filter p).map f).sum = (l.map (fun a => if p a then f a else 0)).sum := by
  induction l with
  | nil => rfl
  | cons a l ih =>
    cases hp : p a with
    | true => simp [List.filter_cons, hp, ih]
    | false => simp [List.filter_cons, hp, ih]

/-- The sum of a `flatMap` is the sum of the blockwise sums. -/
theorem sum_flatMap {α : Type} {M : Type} [AddCommMonoid M] (l : List α)
    (g : α → List M) :
    (l.flatMap g).sum = (l.map (fun a => (g a).sum)).sum := by
  induction l with
  | nil => rfl
  | cons a l ih => simp [List.flatMap_cons, List.sum_append, ih]

/-- The grouped rating values of a title, rewritten as a join iterated
over the movies first. -/
theorem ratingsOfTitle_eq_flatMap (movies : List MovieRow) (ratings : List RatingRow)
    (t : String) :
    ratingsOfTitle movies ratings t =
      movies.flatMap (fun m =>
        ((ratings.filter (fun r =>
          decide (m.title = t) && decide (m.movieId = r.movieId))).map
            (fun r => r.rating))) := by
  unfold ratingsOfTitle mergedRows
  rw [List.filter_flatMap, List.map_flatMap]
  apply congrArg
  funext m
  rw [List.filter_map, List.map_map, List.filter_filter]
  rfl

/-- The length of a filter as a sum of guarded ones. -/
theorem length_filter_eq_sum_ite {α : Type} (l : List α) (p : α → Bool) :
    (l.filter p).length = (l.map (fun a => if p a then (1 : ℕ) else 0)).sum := by
  induction l with
  | nil => rfl
  | cons a l ih =>
    cases hp : p a with
    | true => simp [List.filter_cons, hp, ih]; omega
    | false => simp [List.filter_cons, hp, ih]

/-- The sum of the grouped rating values of a title equals the sum of
the claim-side joined values. -/
theorem ratingsOfTitle_sum_eq (movies : List MovieRow) (ratings : List RatingRow)
    (t : String) :
    (ratingsOfTitle movies ratings t).sum = (ratingsJoinedTo movies ratings t).sum := by
  rw [ratingsOfTitle_eq_flatMap]
  unfold ratingsJoinedTo
  rw [sum_flatMap, sum_flatMap]
  simp only [sum_map_filter_eq_sum_ite]
  rw [sum_map_swap]
  apply congrArg
  apply List.map_congr_left
  intro r _
  apply congrArg
  apply List.map_congr_left
  intro m _
  cases h1 : decide (m.movieId = r.movieId) <;> cases h2 : decide (m.title = t) <;> simp

/-- The count of the grouped rating values of a title equals the count
of the claim-side joined values. -/
theorem ratingsOfTitle_length_eq (movies : List MovieRow) (ratings : List RatingRow)
    (t : String) :
    (ratingsOfTitle movies ratings t).length = (ratingsJoinedTo movies ratings t).length := by
  rw [ratingsOfTitle_eq_flatMap]
  unfold ratingsJoinedTo
  rw [List.length_flatMap, List.length_flatMap]
  simp only [Function.comp_def, List.length_map, length_filter_eq_sum_ite]
  rw [sum_map_swap]
  apply congrArg
  apply List.map_congr_left
  intro r _
  apply congrArg
  apply List.map_congr_left
  intro m _
  cases h1 : decide (m.movieId = r.movieId) <;> cases h2 : decide (m.title = t) <;> simp

/-- C5: every row of `movie_stats` carries, for its title, exactly the
arithmetic mean and the count of the valid rating values whose movie id
inner-joins to a catalog movie bearing that title (`ratingsJoinedTo`
iterates the loaded ratings table, so rating rows with no matching
catalog movie id contribute to neither statistic; rating rows failing
numeric coercion were already dropped by `cleanRatingRows` and never
reach the table at all). -/
theorem c5_stats_exact {movies : List MovieRow} {ratings : List RatingRow}
    {s : StatsRow} (hs : s ∈ movieStats movies ratings) :
    s.meanRating = (ratingsJoinedTo movies ratings s.title).sum /
        ((ratingsJoinedTo movies ratings s.title).length : ℚ) ∧
      s.ratingCount = (ratingsJoinedTo movies ratings s.title).length := by
  unfold movieStats at hs
  obtain ⟨t, _, hst⟩ := List.mem_map.mp hs
  rw [← hst]
  constructor
  · show (ratingsOfTitle movies ratings t).sum /
        ((ratingsOfTitle movies ratings t).length : ℚ) =
      (ratingsJoinedTo movies ratings t).sum /
        ((ratingsJoinedTo movies ratings t).length : ℚ)
    rw [ratingsOfTitle_sum_eq, ratingsOfTitle_length_eq]
  · show (ratingsOfTitle movies ratings t).length =
      (ratingsJoinedTo movies ratings t).length
    rw [ratingsOfTitle_length_eq]

/-- Full evaluation of the small engine on the query `["A"]`: it
succeeds and returns exactly the row for movie B. -/
theorem getRecommendations_wEngine :
    getRecommendations pConst wMovies wRatings ["A"] 10 = .ok [wRow] := by
  with_unfolding_all rfl

/-- C9: when at least one liked title is valid but no candidate survives
the liked-title and threshold filters, the engine returns the empty
sequence rather than an error. -/
theorem c9_empty_after_filter_ok (P : TfidfParams) (movies : List MovieRow)
    (ratings : List RatingRow) (inputMovies : List String) (topN : ℕ)
    (h1 : validMoviesOf movies inputMovies ≠ [])
    (h2 : (candidateRows P movies ratings (validMoviesOf movies inputMovies)).filter
        (passesFilter (validMoviesOf movies inputMovies)) = []) :
    getRecommendations P movies ratings inputMovies topN = .ok [] := by
  unfold getRecommendations
  rw [h2]
  have hv : (validMoviesOf movies inputMovies).isEmpty = false := by
    cases hval : validMoviesOf movies inputMovies with
    | nil => exact absurd hval h1
    | cons a l => rfl
  rw [hv]
  simp

/-- Witness for C9 on the one-movie engine: the liked title is valid,
the filtered candidate set is empty, and the result is `ok []`. -/
theorem c9_empty_after_filter_ok_witness :
    validMoviesOf soloMovies ["A"] ≠ [] ∧
      (candidateRows pConst soloMovies [] (validMoviesOf soloMovies ["A"])).filter
        (passesFilter (validMoviesOf soloMovies ["A"])) = [] ∧
      getRecommendations pConst soloMovies [] ["A"] 5 = .ok [] :=
  ⟨by with_unfolding_all decide, by with_unfolding_all rfl,
    c9_empty_after_filter_ok pConst soloMovies [] ["A"] 5
      (by with_unfolding_all decide) (by with_unfolding_all rfl)⟩

/-- Witness for C2 on the small engine: the returned row for B has mean
`4 > 3.5` and count `301 > 300`. -/
theorem c2_thresholds_witness :
    getRecommendations pConst wMovies wRatings ["A"] 10 = .ok [wRow] ∧
      (∃ m, wRow.meanRating = some m ∧ (7 : ℚ) / 2 < m) ∧
      ∃ c, wRow.ratingCount = some c ∧ 300 < c :=
  ⟨getRecommendations_wEngine,
    c2_thresholds getRecommendations_wEngine wRow (by simp)⟩

/-- Witness for C3 on the small engine: the returned title B is not a
liked title. -/
theorem c3_no_liked_title_returned_witness :
    getRecommendations pConst wMovies wRatings ["A"] 10 = .ok [wRow] ∧
      wRow.title ∉ validMoviesOf wMovies ["A"] :=
  ⟨getRecommendations_wEngine,
    c3_no_liked_title_returned getRecommendations_wEngine wRow (by simp)⟩

/-- Witness for C4 on the small engine: one returned row, length within
`topN` and trivially sorted. -/
theorem c4_length_and_sorted_witness :
    getRecommendations pConst wMovies wRatings ["A"] 10 = .ok [wRow] ∧
      [wRow].length ≤ 10 ∧ List.Sorted simGE [wRow] :=
  ⟨getRecommendations_wEngine, c4_length_and_sorted getRecommendations_wEngine⟩

/-- Witness for C10 on the small engine: the returned title B has a row
in `movie_stats`. -/
theorem c10_returned_rows_have_stats_witness :
    getRecommendations pConst wMovies wRatings ["A"] 10 = .ok [wRow] ∧
      ∃ s ∈ movieStats wMovies wRatings, s.title = wRow.title :=
  ⟨getRecommendations_wEngine,
    c10_returned_rows_have_stats getRecommendations_wEngine wRow (by simp)⟩

/-- Witness for C5 on the small engine: its statistics row for B records
mean `4` and count `301`, matching the direct join. -/
theorem c5_stats_exact_witness :
    (⟨"B", 4, 301⟩ : StatsRow) ∈ movieStats wMovies wRatings ∧
      ((⟨"B", 4, 301⟩ : StatsRow).meanRating =
          (ratingsJoinedTo wMovies wRatings (⟨"B", 4, 301⟩ : StatsRow).title).sum /
            ((ratingsJoinedTo wMovies wRatings (⟨"B", 4, 301⟩ : StatsRow).title).length : ℚ) ∧
        (⟨"B", 4, 301⟩ : StatsRow).ratingCount =
          (ratingsJoinedTo wMovies wRatings (⟨"B", 4, 301⟩ : StatsRow).title).length) :=
  ⟨by with_unfolding_all exact List.mem_singleton.mpr rfl,
    c5_stats_exact (by with_unfolding_all exact List.mem_singleton.mpr rfl)⟩

/-- `find?` only depends on the predicate pointwise. -/
theorem find?_congr_fun {α : Type} {p q : α → Bool} (h : ∀ a, p a = q a) :
    ∀ l : List α, l.find? p = l.find? q := by
  intro l
  induction l with
  | nil => rfl
  | cons a l ih =>
    simp only [List.find?]
    rw [h a]
    cases q a <;> simp [ih]

/-- Two lists with the same members agree on `contains` everywhere. -/
theorem contains_eq_of_mem_iff {l₁ l₂ : List String}
    (h : ∀ x, x ∈ l₁ ↔ x ∈ l₂) (a : String) : l₁.contains a = l₂.contains a := by
  cases h1 : l₁.contains a <;> cases h2 : l₂.contains a <;> simp_all

/-- C8: the result of `getRecommendations` depends on the liked-title
list only through its set of members — permutations and duplications of
the input produce identical results. -/
theorem c8_set_invariance (P : TfidfParams) (movies : List MovieRow)
    (ratings : List RatingRow) (in₁ in₂ : List String) (topN : ℕ)
    (hmem : ∀ t, t ∈ in₁ ↔ t ∈ in₂) :
    getRecommendations P movies ratings in₁ topN =
      getRecommendations P movies ratings in₂ topN := by
  have hvmem : ∀ x, x ∈ validMoviesOf movies in₁ ↔ x ∈ validMoviesOf movies in₂ := by
    intro x
    rw [mem_validMoviesOf, mem_validMoviesOf]
    exact and_congr_left (fun _ => hmem x)
  have hvcont : ∀ x, (validMoviesOf movies in₁).contains x =
      (validMoviesOf movies in₂).contains x :=
    contains_eq_of_mem_iff hvmem
  have hemp : (validMoviesOf movies in₁).isEmpty = (validMoviesOf movies in₂).isEmpty := by
    cases hv1 : validMoviesOf movies in₁ with
    | nil =>
      cases hv2 : validMoviesOf movies in₂ with
      | nil => rfl
      | cons a l =>
        exfalso
        have ha : a ∈ validMoviesOf movies in₂ := by rw [hv2]; exact List.mem_cons_self a l
        have := (hvmem a).mpr ha
        rw [hv1] at this
        cases this
    | cons a l =>
      cases hv2 : validMoviesOf movies in₂ with
      | nil =>
        exfalso
        have ha : a ∈ validMoviesOf movies in₁ := by rw [hv1]; exact List.mem_cons_self a l
        have := (hvmem a).mp ha
        rw [hv2] at this
        cases this
      | cons b m => rfl
  have hq : queryVecOf P movies (validMoviesOf movies in₁) =
      queryVecOf P movies (validMoviesOf movies in₂) := by
    unfold queryVecOf
    rw [find?_congr_fun (fun m => hvcont m.title) movies]
  have hcand : candidateRows P movies ratings (validMoviesOf movies in₁) =
      candidateRows P movies ratings (validMoviesOf movies in₂) := by
    unfold candidateRows
    rw [hq]
  have hpf : passesFilter (validMoviesOf movies in₁) =
      passesFilter (validMoviesOf movies in₂) := by
    funext row
    unfold passesFilter
    rw [hvcont row.title]
  unfold getRecommendations
  rw [hemp, hcand, hpf]

/-- Witness for C8: `["A", "A"]` and `["A"]` have the same members and
produce the same result on the small engine. -/
theorem c8_set_invariance_witness :
    (∀ t, t ∈ ["A", "A"] ↔ t ∈ ["A"]) ∧
      getRecommendations pConst wMovies wRatings ["A", "A"] 10 =
        getRecommendations pConst wMovies wRatings ["A"] 10 :=
  ⟨fun t => by simp, c8_set_invariance pConst wMovies wRatings ["A", "A"] ["A"] 10
    (fun t => by simp)⟩

/-- A nonempty replicate contributes its element once to a union. -/
theorem replicate_union {α : Type} [DecidableEq α] (n : ℕ) (a : α) (l : List α) :
    List.replicate (n + 1) a ∪ l = List.insert a l := by
  induction n with
  | zero => rfl
  | succ k ih =>
    show List.insert a (List.replicate (k + 1) a ∪ l) = List.insert a l
    rw [ih, List.insert_of_mem (List.mem_insert_self a l)]

/-- C6: in the concrete scenario with catalog `{(1,A,Comedy), (2,B,Comedy),
(3,C,Drama)}` and ratings giving each title a mean of `4.0` over `400`
ratings, `getRecommendations ["A"] 10` returns B ranked strictly above C
and never includes A.  Stated for every choice of the abstracted
vectorizer constants satisfying what sklearn's real constants satisfy:
`"comedy"` and `"drama"` are not stop words and the smoothed idf weight
is at least `1`. -/
theorem c6_concrete_scenario (P : TfidfParams)
    (h1 : "comedy" ∉ P.stopWords) (h2 : "drama" ∉ P.stopWords)
    (h3 : ∀ n d, (1 : ℚ) ≤ P.idf n d) :
    ∃ rows, getRecommendations P c6movies c6ratings ["A"] 10 = .ok rows ∧
      rows.map (fun r => r.title) = ["B", "C"] := by
  have hc1 : P.stopWords.contains "comedy" = false := by simpa using h1
  have hc2 : P.stopWords.contains "drama" = false := by simpa using h2
  have htokC : tokensOf P "Comedy" = ["comedy"] := by
    unfold tokensOf
    rw [show tokenize "Comedy" = ["comedy"] from rfl]
    simp only [List.filter_cons, hc1, Bool.not_false, if_true]
    rfl
  have htokD : tokensOf P "Drama" = ["drama"] := by
    unfold tokensOf
    rw [show tokenize "Drama" = ["drama"] from rfl]
    simp only [List.filter_cons, hc2, Bool.not_false, if_true]
    rfl
  have hcorp : corpusOf c6movies = ["Comedy", "Comedy", "Drama"] := rfl
  have hlen : (corpusOf c6movies).length = 3 := rfl
  have hvocab : vocabOf P (corpusOf c6movies) = ["comedy", "drama"] := by
    unfold vocabOf
    rw [hcorp]
    rw [show (["Comedy", "Comedy", "Drama"] : List String).flatMap (tokensOf P) =
        tokensOf P "Comedy" ++ (tokensOf P "Comedy" ++ (tokensOf P "Drama" ++ [])) from rfl]
    rw [htokC, htokD]
    rfl
  have hdfC : docFreq P (corpusOf c6movies) "comedy" = 2 := by
    unfold docFreq
    rw [hcorp]
    simp [List.filter_cons, htokC, htokD]
  have hdfD : docFreq P (corpusOf c6movies) "drama" = 1 := by
    unfold docFreq
    rw [hcorp]
    simp [List.filter_cons, htokC, htokD]
  have htcC1 : termCount P "Comedy" "comedy" = 1 := by
    unfold termCount
    rw [htokC]
    rfl
  have htcC2 : termCount P "Comedy" "drama" = 0 := by
    unfold termCount
    rw [htokC]
    rfl
  have htcD1 : termCount P "Drama" "comedy" = 0 := by
    unfold termCount
    rw [htokD]
    rfl
  have htcD2 : termCount P "Drama" "drama" = 1 := by
    unfold termCount
    rw [htokD]
    rfl
  have hvA : vectorize P (corpusOf c6movies) "Comedy" = [P.idf 3 2, 0] := by
    unfold vectorize
    rw [hvocab]
    simp only [List.map_cons, List.map_nil, hlen, htcC1, htcC2, hdfC, hdfD]
    norm_num
  have hvC : vectorize P (corpusOf c6movies) "Drama" = [0, P.idf 3 1] := by
    unfold vectorize
    rw [hvocab]
    simp only [List.map_cons, List.map_nil, hlen, htcD1, htcD2, hdfC, hdfD]
    norm_num
  have hidf2 : (0 : ℚ) < P.idf 3 2 := lt_of_lt_of_le zero_lt_one (h3 3 2)
  have hdAA : dotProd [P.idf 3 2, 0] [P.idf 3 2, 0] = P.idf 3 2 * P.idf 3 2 := by
    simp [dotProd]
  have hdAC : dotProd [P.idf 3 2, 0] [0, P.idf 3 1] = 0 := by
    simp [dotProd]
  have hx : P.idf 3 2 * P.idf 3 2 ≠ 0 := (mul_pos hidf2 hidf2).ne'
  have hsimAA : simSq [P.idf 3 2, 0] [P.idf 3 2, 0] = 1 := by
    unfold simSq
    rw [hdAA, if_neg (by simp [hx]), sq, div_self (mul_ne_zero hx hx)]
  have hsimAC : simSq [P.idf 3 2, 0] [0, P.idf 3 1] = 0 := by
    unfold simSq
    rw [hdAC]
    split
    · rfl
    · norm_num
  have hmerged : mergedRows c6movies c6ratings =
      List.replicate 400 ((⟨1, "A", "Comedy"⟩ : MovieRow), (⟨1, 1, 4⟩ : RatingRow)) ++
        (List.replicate 400 ((⟨2, "B", "Comedy"⟩ : MovieRow), (⟨1, 2, 4⟩ : RatingRow)) ++
          List.replicate 400 ((⟨3, "C", "Drama"⟩ : MovieRow), (⟨1, 3, 4⟩ : RatingRow))) := by
    unfold mergedRows c6movies c6ratings
    simp only [List.flatMap_cons, List.flatMap_nil, List.filter_append,
      List.filter_replicate, List.map_replicate, List.map_append, List.append_nil]
    norm_num
  have htitles : statTitles c6movies c6ratings = ["A", "B", "C"] := by
    unfold statTitles
    rw [hmerged]
    simp only [List.map_append, List.map_replicate]
    rw [List.dedup_append, List.dedup_append, List.replicate_dedup (by omega)]
    rw [show (400 : ℕ) = 399 + 1 from rfl, replicate_union, replicate_union]
    rfl
  have hvalsA : ratingsOfTitle c6movies c6ratings "A" = List.replicate 400 (4 : ℚ) := by
    unfold ratingsOfTitle
    rw [hmerged]
    simp only [List.filter_append, List.filter_replicate, List.map_append,
      List.map_replicate, List.append_nil]
    norm_num
    decide
  have hvalsB : ratingsOfTitle c6movies c6ratings "B" = List.replicate 400 (4 : ℚ) := by
    unfold ratingsOfTitle
    rw [hmerged]
    simp only [List.filter_append, List.filter_replicate, List.map_append,
      List.map_replicate, List.append_nil]
    norm_num
    decide
  have hvalsC : ratingsOfTitle c6movies c6ratings "C" = List.replicate 400 (4 : ℚ) := by
    unfold ratingsOfTitle
    rw [hmerged]
    simp only [List.filter_append, List.filter_replicate, List.map_append,
      List.map_replicate, List.append_nil]
    norm_num
    decide
  have hstats : movieStats c6movies c6ratings =
      [⟨"A", 4, 400⟩, ⟨"B", 4, 400⟩, ⟨"C", 4, 400⟩] := by
    unfold movieStats
    rw [htitles]
    simp only [List.map_cons, List.map_nil]
    rw [hvalsA, hvalsB, hvalsC, List.sum_replicate, List.length_replicate]
    norm_num
  have hsA : statsFor c6movies c6ratings "A" = some ⟨"A", 4, 400⟩ := by
    unfold statsFor
    rw [hstats]
    rfl
  have hsB : statsFor c6movies c6ratings "B" = some ⟨"B", 4, 400⟩ := by
    unfold statsFor
    rw [hstats]
    rfl
  have hsC : statsFor c6movies c6ratings "C" = some ⟨"C", 4, 400⟩ := by
    unfold statsFor
    rw [hstats]
    rfl
  have hqv : queryVecOf P c6movies ["A"] = [P.idf 3 2, 0] := by
    unfold queryVecOf
    rw [show c6movies.find? (fun m => (["A"] : List String).contains m.title) =
        some ⟨1, "A", "Comedy"⟩ from rfl]
    exact hvA
  have hcand : candidateRows P c6movies c6ratings ["A"] =
      [⟨"A", "Comedy", 1, some 4, some 400⟩,
       ⟨"B", "Comedy", 1, some 4, some 400⟩,
       ⟨"C", "Drama", 0, some 4, some 400⟩] := by
    rw [show candidateRows P c6movies c6ratings ["A"] =
        [⟨"A", "Comedy",
            simSq (queryVecOf P c6movies ["A"]) (vectorize P (corpusOf c6movies) "Comedy"),
            (statsFor c6movies c6ratings "A").map (fun x => x.meanRating),
            (statsFor c6movies c6ratings "A").map (fun x => x.ratingCount)⟩,
         ⟨"B", "Comedy",
            simSq (queryVecOf P c6movies ["A"]) (vectorize P (corpusOf c6movies) "Comedy"),
            (statsFor c6movies c6ratings "B").map (fun x => x.meanRating),
            (statsFor c6movies c6ratings "B").map (fun x => x.ratingCount)⟩,
         ⟨"C", "Drama",
            simSq (queryVecOf P c6movies ["A"]) (vectorize P (corpusOf c6movies) "Drama"),
            (statsFor c6movies c6ratings "C").map (fun x => x.meanRating),
            (statsFor c6movies c6ratings "C").map (fun x => x.ratingCount)⟩] from rfl]
    rw [hqv, hvA, hvC, hsA, hsB, hsC, hsimAA, hsimAC]
    rfl
  refine ⟨[⟨"B", "Comedy", 1, some 4, some 400⟩, ⟨"C", "Drama", 0, some 4, some 400⟩],
    ?_, rfl⟩
  unfold getRecommendations
  rw [show validMoviesOf c6movies ["A"] = ["A"] from rfl, hcand]
  with_unfolding_all rfl

/-- Witness for C6: the concrete vectorizer constants `pConst` satisfy
the three hypotheses, and the scenario plays out as claimed. -/
theorem c6_concrete_scenario_witness :
    ("comedy" ∉ pConst.stopWords) ∧ ("drama" ∉ pConst.stopWords) ∧
      (∀ n d, (1 : ℚ) ≤ pConst.idf n d) ∧
      ∃ rows, getRecommendations pConst c6movies c6ratings ["A"] 10 = .ok rows ∧
        rows.map (fun r => r.title) = ["B", "C"] :=
  ⟨by decide, by decide, fun _ _ => le_refl 1,
    c6_concrete_scenario pConst (by decide) (by decide) (fun _ _ => le_refl 1)⟩

/-! ### Loader fallback behaviour (C7) -/

/-- C7 counterexample: on `c7input` the named parse succeeds (the first
data row becomes the header) and the required-column validation fails;
the source loader raises its schema error immediately, without
attempting the positional fallback, whereas the loader the
specification describes falls back and succeeds.  This refutes the
claim that a named parse that fails to *validate* also triggers the
fallback. -/
theorem c7_counterexample_no_fallback_on_validation :
    loadMovies c7input = .error (.schemaError "movieId") ∧
      loadMoviesSpec c7input = .ok [⟨1, "Matrix", "Action"⟩, ⟨2, "Up", "Animation"⟩] := by
  constructor
  · with_unfolding_all rfl
  · with_unfolding_all rfl

/-- A table produced by the positional parse carries exactly the
assigned column names as its header. -/
theorem readCsvPositional_header {names : List String} {input : List (List String)}
    {t : Table} (h : readCsvPositional names input = some t) : t.header = names := by
  unfold readCsvPositional at h
  split at h
  · cases h
  · split at h
    · cases h
      rfl
    · cases h

/-- C7 as amended: the positional fallback is attempted exactly when the
named parse raises, not when it merely fails validation.  When the named
parse succeeds, the loader keeps its table and fails with a schema error
as soon as a required column is missing; after a successful fallback
parse the assigned names always contain the required columns, so the
loader succeeds.  Both loaders behave this way. -/
theorem c7_fallback_only_on_parse_failure :
    (∀ input t, readCsvNamed input = some t →
      loadMovies input =
        match ["movieId", "title", "genres"].find? (fun c => !(t.header.contains c)) with
        | some c => .error (.schemaError c)
        | none => .ok (cleanMovieRows t)) ∧
    (∀ input, readCsvNamed input = none →
      loadMovies input =
        match readCsvPositional ["movieId", "title", "genres"] input with
        | none => .error .ioError
        | some t => .ok (cleanMovieRows t)) ∧
    (∀ input t, readCsvNamed input = some t →
      loadRatings input =
        match ["userId", "movieId", "rating"].find? (fun c => !(t.header.contains c)) with
        | some c => .error (.schemaError c)
        | none => .ok (cleanRatingRows t)) ∧
    (∀ input, readCsvNamed input = none →
      loadRatings input =
        match readCsvPositional ["userId", "movieId", "rating", "timestamp"] input with
        | none => .error .ioError
        | some t => .ok (cleanRatingRows t)) := by
  refine ⟨?_, ?_, ?_, ?_⟩
  · intro input t h
    unfold loadMovies tableFor
    rw [h]
  · intro input h
    unfold loadMovies tableFor
    rw [h]
    cases hp : readCsvPositional ["movieId", "title", "genres"] input with
    | none => rfl
    | some t =>
      have hh := readCsvPositional_header hp
      have hfind : (["movieId", "title", "genres"].find?
          (fun c => !(t.header.contains c))) = none := by
        rw [hh]
        rfl
      simp only [hfind]
  · intro input t h
    unfold loadRatings tableFor
    rw [h]
  · intro input h
    unfold loadRatings tableFor
    rw [h]
    cases hp : readCsvPositional ["userId", "movieId", "rating", "timestamp"] input with
    | none => rfl
    | some t =>
      have hh := readCsvPositional_header hp
      have hfind : (["userId", "movieId", "rating"].find?
          (fun c => !(t.header.contains c))) = none := by
        rw [hh]
        rfl
      simp only [hfind]

/-- Witness for the amended C7: a named parse that succeeds with all
required columns present loads the cleaned rows without any fallback. -/
theorem c7_fallback_only_on_parse_failure_witness :
    readCsvNamed c7namedInput =
        some ⟨["movieId", "title", "genres"], [["5", "X", "Comedy"]]⟩ ∧
      loadMovies c7namedInput =
        (match ["movieId", "title", "genres"].find?
            (fun c => !((⟨["movieId", "title", "genres"],
              [["5", "X", "Comedy"]]⟩ : Table).header.contains c)) with
         | some c => .error (.schemaError c)
         | none => .ok (cleanMovieRows
            ⟨["movieId", "title", "genres"], [["5", "X", "Comedy"]]⟩)) :=
  ⟨rfl, c7_fallback_only_on_parse_failure.1 c7namedInput
    ⟨["movieId", "title", "genres"], [["5", "X", "Comedy"]]⟩ rfl⟩
